import Mathlib

/-!
Formal model of the swamp transaction protocol and synchronized-memory engine
(`swamp/message.py`, `swamp/syncmem.py`, `swamp/gbtsca.py`), together with
theorems about its behaviour.  Python objects become Lean structures, object
mutation becomes explicit state passing, a raised exception becomes the
`Except.error` branch, and `bytearray`s become lists of byte values.
-/

namespace Swamp

/-- Decidable equality for `Except` results, so that concrete runs of the
model can be checked by `decide`. -/
instance {ε α : Type} [DecidableEq ε] [DecidableEq α] :
    DecidableEq (Except ε α) := fun x y =>
  match x, y with
  | .ok a, .ok b =>
    if h : a = b then isTrue (by rw [h]) else isFalse (by simp [h])
  | .error a, .error b =>
    if h : a = b then isTrue (by rw [h]) else isFalse (by simp [h])
  | .ok _, .error _ => isFalse (by simp)
  | .error _, .ok _ => isFalse (by simp)

/-- Lifecycle state of a message: the `state` attribute in `message.py`,
one of the strings `pending`, `committed`, `error`. -/
inductive TState where
  | pending
  | committed
  | error
deriving DecidableEq, Repr

/-- Variant payload of a message: `WriteTransaction` carries the value to be
written, `ReadTransaction` carries the value read back (absent until the read
commits), `MemReset` carries nothing. -/
inductive TKind where
  | write (value : Nat)
  | read (value : Option Nat)
  | memReset
deriving DecidableEq, Repr

/-- The data of `SWAMPMessage` and its subclasses from `message.py`.  The `id`
is the globally unique value that `generate_id` returns; freshness is modelled
by passing the id in explicitly.  Python membership tests (`in`, `index`) on
lists of messages use object identity, which the unique `id` field models.
The `group` handle is the pair of a group id and the member ids in creation
order; it is only set by the (spec-modelled) grouping helpers. -/
structure SWAMPMessage where
  id : Nat
  address : Int
  origin_id : Nat
  target_id : Nat := 0
  state : TState := .pending
  error_message : Option String := none
  group : Option (Nat × List Nat) := none
  kind : TKind
deriving DecidableEq, Repr

/-- Constructor `WriteTransaction(address, value, origin_id, target_id=0)`. -/
def WriteTransaction (address : Int) (value : Nat) (origin_id : Nat)
    (fresh_id : Nat) (target_id : Nat := 0) : SWAMPMessage :=
  { id := fresh_id, address := address, origin_id := origin_id,
    target_id := target_id, kind := .write value }

/-- Constructor `ReadTransaction(address, origin_id, target_id=0)`:
the value starts as `None`. -/
def ReadTransaction (address : Int) (origin_id : Nat)
    (fresh_id : Nat) (target_id : Nat := 0) : SWAMPMessage :=
  { id := fresh_id, address := address, origin_id := origin_id,
    target_id := target_id, kind := .read none }

/-- Constructor `MemReset(origin_id, target_id=0)`: the address is `-1`. -/
def MemReset (origin_id : Nat) (fresh_id : Nat)
    (target_id : Nat := 0) : SWAMPMessage :=
  { id := fresh_id, address := -1, origin_id := origin_id,
    target_id := target_id, kind := .memReset }

/-- `SWAMPMessage.commit`: sets `state = 'committed'`, unconditionally. -/
def SWAMPMessage.commit (m : SWAMPMessage) : SWAMPMessage :=
  { m with state := .committed }

/-- `SWAMPMessage.set_error(error_message)`: sets `state = 'error'` and stores
the message, unconditionally. -/
def SWAMPMessage.set_error (m : SWAMPMessage) (e : String) : SWAMPMessage :=
  { m with state := .error, error_message := some e }

/-- `ReadTransaction.commit(value)`: sets `state = 'committed'` and stores the
byte read from hardware. -/
def SWAMPMessage.commitRead (m : SWAMPMessage) (value : Nat) : SWAMPMessage :=
  { m with state := .committed, kind := .read (some value) }

/-- Modelled from the spec: `SWAMPMessage.link_messages_to_group` is imported
by the tests from `swamp.message` but is missing from the sources.  Per the
spec it assigns all given transactions a new shared group handle and records
their relative order as given; the handle here is the fresh group id paired
with the member ids in creation order. -/
def link_messages_to_group (gid : Nat) (msgs : List SWAMPMessage) :
    List SWAMPMessage :=
  msgs.map (fun m => { m with group := some (gid, msgs.map (fun u => u.id)) })

/-- Modelled from the spec: the owning key of a transaction is its group id,
or its own id if ungrouped. -/
def owningKey (m : SWAMPMessage) : Nat :=
  match m.group with
  | some g => g.1
  | none => m.id

/-- Modelled from the spec: the keys in order of first occurrence in the
input, which is the result of stable-sorting the keys by their
first-occurrence index. -/
def firstOccurrenceKeys : List SWAMPMessage → List Nat
  | [] => []
  | t :: ts =>
    owningKey t :: (firstOccurrenceKeys ts).filter (fun k => k ≠ owningKey t)

/-- Modelled from the spec: the members of one key, emitted in canonical
(creation) order and filtered to the members present in the input; a
singleton key emits just its transaction. -/
def membersOfKey (input : List SWAMPMessage) (k : Nat) : List SWAMPMessage :=
  match input.find? (fun t => owningKey t = k) with
  | none => []
  | some t =>
    match t.group with
    | none => [t]
    | some g => g.2.filterMap (fun mid => input.find? (fun u => u.id = mid))

/-- Modelled from the spec: `ensure_groups_are_atomic` (the Group Ordering
Algorithm), imported by the tests from `swamp.message` but missing from the
sources.  For each key in first-occurrence order, emit its members in
creation order, filtered to those present in the input. -/
def ensure_groups_are_atomic (input : List SWAMPMessage) : List SWAMPMessage :=
  (firstOccurrenceKeys input).flatMap (membersOfKey input)

/-! ## Synchronized memory (`syncmem.py`) -/

/-- Python indexing into a `bytearray`: a negative index counts from the end.
Out-of-range accesses (an `IndexError` in Python) are excluded by hypotheses
wherever an access matters. -/
def pyGet (mem : List Nat) (i : Int) : Nat :=
  if i < 0 then mem.getD (mem.length - (-i).toNat) 0 else mem.getD i.toNat 0

/-- Python assignment `mem[i] = v` on a `bytearray`. -/
def pySet (mem : List Nat) (i : Int) (v : Nat) : List Nat :=
  if i < 0 then mem.set (mem.length - (-i).toNat) v else mem.set i.toNat v

/-- The byte computed by `SynchronizedMemory.update_memory`:
`(cell & ~bitmask) | (value & bitmask)`.  A `bytearray` cell is below 256, so
the bitwise-and of the cell with the Python complement `~bitmask` equals the
and with the byte complement `255 ^^^ (bitmask &&& 255)`. -/
def maskUpdate (cell bitmask value : Nat) : Nat :=
  (cell &&& (255 ^^^ (bitmask &&& 255))) ||| (value &&& bitmask)

/-- `SynchronizedMemory.update_memory(memory, address, bitmask, value)`:
`memory[address] = (memory[address] & ~bitmask) | (value & bitmask)`. -/
def update_memory (memory : List Nat) (address : Int) (bitmask value : Nat) :
    List Nat :=
  pySet memory address (maskUpdate (pyGet memory address) bitmask value)

/-- The state of a `SynchronizedMemory` object.  The `id` is the origin id
returned by `transport.attach_callback`; `next_id` models the supply of fresh
unique message ids from `generate_id`. -/
structure SyncMem where
  mem_default : List Nat
  memory_cache : List Nat
  memory_committed : List Nat
  transactions_waited_on : List SWAMPMessage
  in_flight_transactions : List SWAMPMessage
  read_error : Option String
  id : Nat
  next_id : Nat
deriving DecidableEq, Repr

/-- `SynchronizedMemory.__init__` with an explicit default pattern: cache and
committed memory start as copies of the default. -/
def SyncMem.initPattern (default_mem_pattern : List Nat) (origin : Nat) :
    SyncMem :=
  { mem_default := default_mem_pattern,
    memory_cache := default_mem_pattern,
    memory_committed := default_mem_pattern,
    transactions_waited_on := [],
    in_flight_transactions := [],
    read_error := none,
    id := origin,
    next_id := 0 }

/-- `SynchronizedMemory.__init__` with `default_mem_pattern=None`: the default
pattern is all zero bytes. -/
def SyncMem.init (memory_size : Nat) (origin : Nat) : SyncMem :=
  SyncMem.initPattern (List.replicate memory_size 0) origin

/-- One iteration of the loop in `SynchronizedMemory.write` on one update
`(address, bitmask, value)`: skip it if the masked bits already agree with the
cache; otherwise update the cache, build a `WriteTransaction` carrying the
resulting full byte, register it in flight and send it.  Returns the new
state and the transactions handed to `transport.send_transaction`. -/
def SyncMem.writeOne (s : SyncMem) (message : Int × Nat × Nat) :
    SyncMem × List SWAMPMessage :=
  let (address, bitmask, value) := message
  if (pyGet s.memory_cache address &&& bitmask) ≠ (value &&& bitmask) then
    let cache' := update_memory s.memory_cache address bitmask value
    let value' := pyGet cache' address
    let transaction := WriteTransaction address value' s.id s.next_id
    ({ s with memory_cache := cache',
              in_flight_transactions := s.in_flight_transactions ++ [transaction],
              next_id := s.next_id + 1 },
     [transaction])
  else (s, [])

/-- `SynchronizedMemory.write(messages)`: the loop over the batch. -/
def SyncMem.write (s : SyncMem) : List (Int × Nat × Nat) →
    SyncMem × List SWAMPMessage
  | [] => (s, [])
  | message :: rest =>
    let (s', sent) := s.writeOne message
    let (s'', sent') := s'.write rest
    (s'', sent ++ sent')

/-- The cache branch of `SynchronizedMemory.read` (`from_hardware=False`). -/
def SyncMem.readCache (s : SyncMem) (addresses : List Int) : List Nat :=
  addresses.map (pyGet s.memory_cache)

/-- The submission half of the hardware branch of `SynchronizedMemory.read`:
for each address create a `ReadTransaction`, register it both in flight and
as waited on, and send it.  Returns the new state and the sent reads. -/
def SyncMem.readHwSubmit (s : SyncMem) : List Int →
    SyncMem × List SWAMPMessage
  | [] => (s, [])
  | address :: rest =>
    let t := ReadTransaction address s.id s.next_id
    let s' := { s with
      in_flight_transactions := s.in_flight_transactions ++ [t],
      transactions_waited_on := s.transactions_waited_on ++ [t],
      next_id := s.next_id + 1 }
    let (s'', ts) := s'.readHwSubmit rest
    (s'', t :: ts)

/-- The wake-up code of the hardware branch of `SynchronizedMemory.read`
(lines 101-105): raise `ValueError(self.read_error)` if the read-error slot
is set, otherwise return the committed values of the requested addresses.
Unreachable in execution: the wait right above it raises first. -/
def SyncMem.readHwComplete (s : SyncMem) (addresses : List Int) :
    Except String (List Nat) :=
  match s.read_error with
  | some e => .error e
  | none => .ok (addresses.map (pyGet s.memory_committed))

/-- The read-error text recorded when a hardware read disagrees with the
committed memory (spelling as in the source). -/
def mismatchMsg : String :=
  "Memory read from the hardware does not match the committed memmory"

/-- The text of the `RuntimeError` raised for an errored write or reset and
recorded for an errored read (the id and message interpolations dropped). -/
def errorMsg : String := "Transaction returned an error"

/-- The `AttributeError` raised by the wait in the hardware branch of
`read`: `with self.read_complete as cleared_to_read` binds the result of
`Condition.__enter__`, which is the acquire result of the underlying lock,
the bool `True`, so `cleared_to_read.wait()` fails on every hardware read. -/
def pyBoolWaitError : String :=
  "AttributeError: bool object has no attribute wait"

/-- The `AttributeError` raised by the notify in `receive_response`: `with
self.read_complete as rc` likewise binds `True`, so `rc.notify_all()` fails
whenever the awaited-read list drains to empty. -/
def pyBoolNotifyError : String :=
  "AttributeError: bool object has no attribute notify_all"

/-- One iteration of the loop in `SynchronizedMemory.receive_response`.
Membership and deletion on the transaction lists are by object identity,
modelled by the unique `id` field.  A raised `RuntimeError` is the `error`
branch and carries the state at the raise, since mutations made before the
raise persist. -/
def SyncMem.processOne (s : SyncMem) (transaction : SWAMPMessage) :
    Except (String × SyncMem) SyncMem :=
  if s.in_flight_transactions.any (fun u => u.id = transaction.id) then
    let s1 := { s with in_flight_transactions :=
      s.in_flight_transactions.eraseP (fun u => u.id = transaction.id) }
    match transaction.kind with
    | .memReset =>
      if transaction.state = .committed then
        .ok { s1 with memory_committed := s1.mem_default }
      else if transaction.state = .error then
        .error (errorMsg, s1)
      else .ok s1
    | .write value =>
      if transaction.state = .committed then
        .ok { s1 with memory_committed :=
          update_memory s1.memory_committed transaction.address 255 value }
      else if transaction.state = .error then
        .error (errorMsg, s1)
      else .ok s1
    | .read value =>
      let s2 := { s1 with transactions_waited_on :=
        s1.transactions_waited_on.eraseP (fun u => u.id = transaction.id) }
      let s3 := if transaction.state = .error then
          { s2 with read_error := some errorMsg }
        else s2
      let s4 := if some (pyGet s3.memory_committed transaction.address) ≠ value
        then { s3 with read_error := some mismatchMsg }
        else s3
      if s4.transactions_waited_on.length = 0 then
        .error (pyBoolNotifyError, s4)
      else .ok s4
  else .ok s

/-- `SynchronizedMemory.receive_response(transactions)`: the loop over the
delivered batch; a raise aborts the rest of the loop. -/
def SyncMem.receive_response (s : SyncMem)
    (transactions : List SWAMPMessage) : Except (String × SyncMem) SyncMem :=
  transactions.foldlM SyncMem.processOne s

/-- How the transport resolves one awaited read: `some v` commits it with the
hardware byte `v` (via `ReadTransaction.commit`), `none` resolves it with an
error. -/
def resolveRead (t : SWAMPMessage) (o : Option Nat) : SWAMPMessage :=
  match o with
  | some v => t.commitRead v
  | none => t.set_error "Mock error to test handling"

/-- The value the read-error slot holds after the callback processes one
resolved read against the current committed memory: untouched when the read
committed with exactly the committed byte of its address, and the mismatch
message otherwise (an errored read also trips the mismatch comparison, since
its value is still absent). -/
def readOutcomeErr (u : SyncMem) (t : SWAMPMessage) (o : Option Nat) :
    Option String :=
  match o with
  | some v => if v = pyGet u.memory_committed t.address
      then u.read_error else some mismatchMsg
  | none => some mismatchMsg

/-- The whole hardware branch of `SynchronizedMemory.read`: submit all the
reads, then execute `with self.read_complete as cleared_to_read:
cleared_to_read.wait()`.  Since `cleared_to_read` is the bool `True`, the
wait raises `AttributeError` unconditionally: the call never blocks, never
runs the validation below it, and never returns the committed values.  The
submitted transactions stay registered in the returned state. -/
def SyncMem.read_from_hardware (s : SyncMem) (addresses : List Int) :
    SyncMem × Except String (List Nat) :=
  let (s1, _) := s.readHwSubmit addresses
  (s1, .error pyBoolWaitError)

/-- `SynchronizedMemory.outstanding_commits()`. -/
def SyncMem.outstanding_commits (s : SyncMem) : List SWAMPMessage :=
  s.in_flight_transactions

/-- `SynchronizedMemory.reset()`: clear the cache to the default pattern,
register and send a `MemReset`. -/
def SyncMem.reset (s : SyncMem) : SyncMem × SWAMPMessage :=
  let transaction := MemReset s.id s.next_id
  ({ s with memory_cache := s.mem_default,
            in_flight_transactions := s.in_flight_transactions ++ [transaction],
            next_id := s.next_id + 1 },
   transaction)

/-- Projection used to state facts about the success branch of
`receive_response` without an existential. -/
def okState : Except (String × SyncMem) SyncMem → Option SyncMem
  | .ok u => some u
  | .error _ => none

/-! ## Transport engine (`gbtsca.py`) -/

/-- A gbtsca `Message`: channel, command, payload, and the response slot that
`Message.receive_response` fills in (`response`, `response_length`, `error`). -/
structure Message where
  id : Nat
  channel : Nat
  command : Nat
  data : List Nat
  response : Option (List Nat) := none
  response_length : Option Nat := none
  error : Option Nat := none
deriving DecidableEq, Repr, Inhabited

/-- `Message.receive_response(response, length, error=None)`. -/
def Message.receiveResponse (m : Message) (resp : List Nat) (length : Nat)
    (error : Option Nat) : Message :=
  { m with response := some resp, response_length := some length,
           error := error }

/-- The registry state of a `GBT_SCA`: the pool of free transaction ids and
the in-flight registry `transaction_queue` of (id, message) pairs. -/
structure TransportState where
  free_transaction_ids : List Nat
  transaction_queue : List (Nat × Message)
deriving DecidableEq, Repr

/-- The registry part of `GBT_SCA.transmit`: fail if no transaction id is
free, otherwise pop the first free id and append the (id, message) pair to
the in-flight registry.  The register writes to the bus are external side
effects outside the model. -/
def transmit (st : TransportState) (message : Message) :
    Except String (TransportState × Nat) :=
  match st.free_transaction_ids with
  | [] => .error "No more free transaction IDs"
  | transaction_id :: rest =>
    .ok ({ free_transaction_ids := rest,
           transaction_queue := st.transaction_queue ++ [(transaction_id, message)] },
         transaction_id)

/-- One inbound frame read from the rx registers in `GBT_SCA.listen`. -/
structure Response where
  address : Nat
  channel : Nat
  transID : Nat
  error : Nat
  data : List Nat
  length : Nat
deriving DecidableEq, Repr

/-- The outcome of one iteration of the matching loop: a spurious frame is
dropped, a protocol violation raises `GBT_SCA_ERROR` (carrying the registry
state at the raise), or the matched message is resolved. -/
inductive ListenStep where
  | spurious (st : TransportState)
  | fatal (msg : String) (st : TransportState)
  | resolved (st : TransportState) (transaction_id : Nat) (message : Message)
deriving DecidableEq, Repr

/-- One iteration of `GBT_SCA.listen` on one inbound frame: drop frames with
a sentinel id (0 or 255); otherwise match the id against the in-flight
registry, raising unless exactly one entry matches; on a match, release the
id back to the free pool and remove the entry from the registry, then check
the structural invariants of the frame, then resolve the message. -/
def listen_step (st : TransportState) (r : Response) : ListenStep :=
  if r.transID = 0 ∨ r.transID = 255 then .spurious st
  else
    let transaction_list :=
      st.transaction_queue.filter (fun t => t.1 = r.transID)
    if transaction_list.length ≠ 1 then
      .fatal "Got a response for a message that was not listed as an open transaction" st
    else
      let transaction := transaction_list.getD 0 (0, default)
      let st1 : TransportState :=
        { free_transaction_ids := st.free_transaction_ids ++ [transaction.1],
          transaction_queue :=
            st.transaction_queue.filter (fun t => t.1 ≠ r.transID) }
      let message := transaction.2
      if message.channel ≠ r.channel then
        .fatal "Channel mismatch" st1
      else if r.address ≠ 0 then
        .fatal "The Address in the response was not 0" st1
      else if r.error = 0 then
        .resolved st1 transaction.1 (message.receiveResponse r.data r.length none)
      else
        .resolved st1 transaction.1 (message.receiveResponse [] 0 (some r.error))

/-! ## The grouping scenario of `test_sort_transactions` -/

/-- `transaction_1 = WriteTransaction(10, 5, 1)` with fresh id 1. -/
def t1ex : SWAMPMessage := WriteTransaction 10 5 1 1

/-- `transaction_2 = ReadTransaction(12, 1)` with fresh id 2. -/
def t2ex : SWAMPMessage := ReadTransaction 12 1 2

/-- `transaction_3 = MemReset(1)` with fresh id 3, left ungrouped. -/
def t3ex : SWAMPMessage := MemReset 1 3

/-- `transaction_4 = WriteTransaction(14, 7, 1)` with fresh id 4. -/
def t4ex : SWAMPMessage := WriteTransaction 14 7 1 4

/-- `transaction_5 = ReadTransaction(16, 1)` with fresh id 5. -/
def t5ex : SWAMPMessage := ReadTransaction 16 1 5

/-- `transaction_1` after `link_messages_to_group([transaction_1,
transaction_2])` with fresh group id 101. -/
def t1g : SWAMPMessage := { t1ex with group := some (101, [1, 2]) }

/-- `transaction_2` after linking into group 101. -/
def t2g : SWAMPMessage := { t2ex with group := some (101, [1, 2]) }

/-- `transaction_4` after `link_messages_to_group([transaction_4,
transaction_5])` with fresh group id 102. -/
def t4g : SWAMPMessage := { t4ex with group := some (102, [4, 5]) }

/-- `transaction_5` after linking into group 102. -/
def t5g : SWAMPMessage := { t5ex with group := some (102, [4, 5]) }

/-- The unsorted input of `test_sort_transactions`. -/
def exInput : List SWAMPMessage := [t3ex, t5g, t1g, t4g, t2g]

/-- A transport registry with one in-flight entry under identifier 5. -/
def stEx : TransportState :=
  ⟨[1], [(5, Message.mk 9 3 4 [1] none none none)]⟩

/-- A well-formed inbound frame answering identifier 5 on channel 3. -/
def rEx : Response := ⟨0, 3, 5, 0, [7, 8], 2⟩

/-! ## Helper lemmas -/

theorem and_255_of_lt (v : Nat) (h : v < 256) : v &&& 255 = v := by
  apply Nat.eq_of_testBit_eq
  intro i
  rw [Nat.testBit_land]
  by_cases hi : i < 8
  · have h255 : Nat.testBit 255 i = true := by
      have h8 : (255 : Nat) = 2 ^ 8 - 1 := by norm_num
      rw [h8, Nat.testBit_two_pow_sub_one]
      simpa using hi
    simp [h255]
  · have hv : Nat.testBit v i = false := by
      apply Nat.testBit_lt_two_pow
      calc v < 256 := h
        _ = 2 ^ 8 := by norm_num
        _ ≤ 2 ^ i := Nat.pow_le_pow_right (by norm_num) (by omega)
    simp [hv]

/-- Writing with the full-byte bitmask replaces the whole cell. -/
theorem maskUpdate_full (cell value : Nat) (hv : value < 256) :
    maskUpdate cell 255 value = value := by
  unfold maskUpdate
  have h1 : (255 : Nat) ^^^ (255 &&& 255) = 0 := by decide
  rw [h1, Nat.and_zero, Nat.zero_or, and_255_of_lt value hv]

/-- Reading back a cell just assigned, at a valid nonnegative index. -/
theorem pyGet_pySet_self (mem : List Nat) (i : Int) (v : Nat)
    (h0 : 0 ≤ i) (hl : i.toNat < mem.length) : pyGet (pySet mem i v) i = v := by
  have hnotlt : ¬ i < 0 := by omega
  simp only [pyGet, pySet, if_neg hnotlt]
  rw [List.getD_eq_getElem?_getD, List.getElem?_set_self hl]
  rfl

/-- The state never changes once a message is resolved, when write batches
are all redundant nothing happens: one pass of `write` on one redundant
update is the identity returning no transactions. -/
theorem writeOne_redundant (s : SyncMem) (m : Int × Nat × Nat)
    (h : pyGet s.memory_cache m.1 &&& m.2.1 = m.2.2 &&& m.2.1) :
    s.writeOne m = (s, []) := by
  obtain ⟨a, bm, v⟩ := m
  simp only [SyncMem.writeOne]
  rw [if_neg]
  simp only [ne_eq, not_not]
  exact h

/-- A batch in which every update is a no-op leaves `write` at the initial
state with nothing sent. -/
theorem write_all_redundant (s : SyncMem) :
    ∀ messages : List (Int × Nat × Nat),
    (∀ m ∈ messages, s.writeOne m = (s, [])) → s.write messages = (s, [])
  | [], _ => rfl
  | m :: rest, h => by
    have hm := h m (List.mem_cons_self m rest)
    have hr := write_all_redundant s rest
      (fun x hx => h x (List.mem_cons_of_mem m hx))
    simp [SyncMem.write, hm, hr]

/-- `write` on a one-element batch is one pass of the loop. -/
theorem write_singleton (s : SyncMem) (m : Int × Nat × Nat) :
    s.write [m] = ((s.writeOne m).1, (s.writeOne m).2) := by
  rcases hw : s.writeOne m with ⟨s', sent⟩
  simp [SyncMem.write, hw]

/-- A non-redundant full-byte write of byte `v` at a valid address: the cache
cell becomes `v` and exactly one `WriteTransaction` carrying the resulting
full byte `v` is registered in flight and sent. -/
theorem write_single_full (s : SyncMem) (a : Int) (v : Nat)
    (ha0 : 0 ≤ a) (ha : a.toNat < s.memory_cache.length)
    (hv : v < 256) (hcell : pyGet s.memory_cache a < 256)
    (hne : pyGet s.memory_cache a ≠ v) :
    s.write [(a, 255, v)] =
      ({ s with memory_cache := update_memory s.memory_cache a 255 v,
                in_flight_transactions := s.in_flight_transactions
                  ++ [WriteTransaction a v s.id s.next_id],
                next_id := s.next_id + 1 },
       [WriteTransaction a v s.id s.next_id]) := by
  have hval : pyGet (update_memory s.memory_cache a 255 v) a = v := by
    unfold update_memory
    rw [pyGet_pySet_self _ _ _ ha0 ha, maskUpdate_full _ _ hv]
  have hcond : (pyGet s.memory_cache a &&& 255) ≠ (v &&& 255) := by
    rw [and_255_of_lt _ hcell, and_255_of_lt _ hv]; exact hne
  have hone : s.writeOne (a, 255, v) =
      ({ s with memory_cache := update_memory s.memory_cache a 255 v,
                in_flight_transactions := s.in_flight_transactions
                  ++ [WriteTransaction a v s.id s.next_id],
                next_id := s.next_id + 1 },
       [WriteTransaction a v s.id s.next_id]) := by
    simp only [SyncMem.writeOne]
    rw [if_pos hcond, hval]
  rw [write_singleton, hone]

/-- Delivering a committed write that is in flight: the entry is dropped from
the in-flight list and the committed memory is updated with the full-byte
bitmask. -/
theorem processOne_committed_write (u : SyncMem) (t : SWAMPMessage)
    (value : Nat)
    (hmem : u.in_flight_transactions.any (fun w => w.id = t.id) = true)
    (hkind : t.kind = TKind.write value)
    (hstate : t.state = TState.committed) :
    u.processOne t = .ok
      { u with
        memory_committed := update_memory u.memory_committed t.address 255 value,
        in_flight_transactions := u.in_flight_transactions.eraseP (fun w => w.id = t.id) } := by
  simp only [SyncMem.processOne]
  rw [if_pos hmem, hkind]
  simp [hstate]

/-- Delivering an errored write that is in flight: the entry is dropped from
the in-flight list, then a `RuntimeError` is raised with everything else
unchanged. -/
theorem processOne_error_write (u : SyncMem) (t : SWAMPMessage) (value : Nat)
    (hmem : u.in_flight_transactions.any (fun w => w.id = t.id) = true)
    (hkind : t.kind = TKind.write value)
    (hstate : t.state = TState.error) :
    u.processOne t = .error (errorMsg,
      { u with in_flight_transactions :=
          u.in_flight_transactions.eraseP (fun w => w.id = t.id) }) := by
  simp only [SyncMem.processOne]
  rw [if_pos hmem, hkind]
  simp [hstate]

/-- Delivering a single transaction is one pass of the callback loop. -/
theorem receive_response_singleton (s : SyncMem) (t : SWAMPMessage) :
    s.receive_response [t] = s.processOne t := by
  simp only [SyncMem.receive_response, List.foldlM]
  cases h : s.processOne t <;> simp [h, Except.bind]

/-- Submitting a batch of hardware reads only grows the in-flight and
waited-on lists by the created read transactions, which are all pending
reads; memory views and the read-error slot are untouched. -/
theorem readHwSubmit_spec :
    ∀ (addresses : List Int) (s : SyncMem),
    (s.readHwSubmit addresses).1.mem_default = s.mem_default ∧
    (s.readHwSubmit addresses).1.memory_cache = s.memory_cache ∧
    (s.readHwSubmit addresses).1.memory_committed = s.memory_committed ∧
    (s.readHwSubmit addresses).1.read_error = s.read_error ∧
    (s.readHwSubmit addresses).1.in_flight_transactions
      = s.in_flight_transactions ++ (s.readHwSubmit addresses).2 ∧
    (s.readHwSubmit addresses).1.transactions_waited_on
      = s.transactions_waited_on ++ (s.readHwSubmit addresses).2 ∧
    (∀ t ∈ (s.readHwSubmit addresses).2, t.kind = TKind.read none) ∧
    (s.readHwSubmit addresses).2.map (fun t => t.address) = addresses
  | [], s => by simp [SyncMem.readHwSubmit]
  | a :: rest, s => by
    simp only [SyncMem.readHwSubmit]
    have ih := readHwSubmit_spec rest
      { s with
        in_flight_transactions :=
          s.in_flight_transactions ++ [ReadTransaction a s.id s.next_id],
        transactions_waited_on :=
          s.transactions_waited_on ++ [ReadTransaction a s.id s.next_id],
        next_id := s.next_id + 1 }
    rcases hsub : SyncMem.readHwSubmit
        { s with
          in_flight_transactions :=
            s.in_flight_transactions ++ [ReadTransaction a s.id s.next_id],
          transactions_waited_on :=
            s.transactions_waited_on ++ [ReadTransaction a s.id s.next_id],
          next_id := s.next_id + 1 } rest with ⟨s2, ts⟩
    rw [hsub] at ih
    obtain ⟨ih1, ih2, ih3, ih4, ih5, ih6, ih7, ih8⟩ := ih
    refine ⟨ih1, ih2, ih3, ih4, ?_, ?_, ?_, ?_⟩
    · rw [ih5]
      simp [List.append_assoc]
    · rw [ih6]
      simp [List.append_assoc]
    · intro t ht
      rcases List.mem_cons.mp ht with h | h
      · subst h; rfl
      · exact ih7 t h
    · have ih8' : ts.map (fun t => t.address) = rest := ih8
      simp [ReadTransaction, ih8']

/-- Delivering one resolved read that is the only in-flight and only
awaited transaction: the entry is dropped from both lists and the read-error
slot updated, but then the notify at the drained awaited list raises
`AttributeError`, carrying that state. -/
theorem processOne_read_last (u : SyncMem) (t : SWAMPMessage) (o : Option Nat)
    (hf : u.in_flight_transactions = [t])
    (hw : u.transactions_waited_on = [t])
    (hkind : t.kind = TKind.read none) :
    u.processOne (resolveRead t o) = .error (pyBoolNotifyError,
      { u with
        in_flight_transactions := [],
        transactions_waited_on := [],
        read_error := readOutcomeErr u t o }) := by
  cases o with
  | some v =>
    have hmem : (u.in_flight_transactions.any
        (fun w => w.id = (resolveRead t (some v)).id)) = true := by
      rw [hf]
      simp [resolveRead, SWAMPMessage.commitRead]
    simp only [SyncMem.processOne, hmem, if_pos]
    rw [hf, hw]
    by_cases hv : v = pyGet u.memory_committed t.address
    · simp [resolveRead, SWAMPMessage.commitRead, List.eraseP_cons,
        readOutcomeErr, hv]
    · simp [resolveRead, SWAMPMessage.commitRead, List.eraseP_cons,
        readOutcomeErr, hv, Ne.symm hv]
  | none =>
    have hmem : (u.in_flight_transactions.any
        (fun w => w.id = (resolveRead t none).id)) = true := by
      rw [hf]
      simp [resolveRead, SWAMPMessage.set_error]
    simp only [SyncMem.processOne, hmem, if_pos]
    rw [hf, hw]
    simp [resolveRead, SWAMPMessage.set_error, List.eraseP_cons,
      readOutcomeErr, hkind]

/-- A key is listed exactly when some input transaction owns it. -/
theorem mem_firstOccurrenceKeys :
    ∀ (l : List SWAMPMessage) (k : Nat),
    k ∈ firstOccurrenceKeys l ↔ ∃ t ∈ l, owningKey t = k
  | [], k => by simp [firstOccurrenceKeys]
  | t :: ts, k => by
    rw [firstOccurrenceKeys]
    simp only [List.mem_cons, List.mem_filter, decide_eq_true_eq,
      mem_firstOccurrenceKeys ts k]
    constructor
    · rintro (h | ⟨⟨u, hu, hk⟩, hne⟩)
      · exact ⟨t, Or.inl rfl, h.symm⟩
      · exact ⟨u, Or.inr hu, hk⟩
    · rintro ⟨u, hu, hk⟩
      rcases hu with h | h
      · subst h; exact Or.inl hk.symm
      · by_cases hne : k = owningKey t
        · exact Or.inl hne
        · exact Or.inr ⟨⟨u, h, hk⟩, hne⟩

/-- The key list has no duplicates. -/
theorem nodup_firstOccurrenceKeys :
    ∀ l : List SWAMPMessage, (firstOccurrenceKeys l).Nodup
  | [] => List.nodup_nil
  | t :: ts => by
    rw [firstOccurrenceKeys, List.nodup_cons]
    refine ⟨?_, List.Nodup.filter _ (nodup_firstOccurrenceKeys ts)⟩
    intro hmem
    have h2 := (List.mem_filter.mp hmem).2
    simp at h2

/-- With globally unique ids, the find-by-id lookup finds a given input
transaction exactly when the id matches. -/
theorem find_id_eq (input : List SWAMPMessage)
    (wfid : (input.map (fun t => t.id)).Nodup)
    (u : SWAMPMessage) (hu : u ∈ input) (mid : Nat) :
    input.find? (fun w => w.id = mid) = some u ↔ u.id = mid := by
  constructor
  · intro h
    have hp := List.find?_some h
    exact of_decide_eq_true hp
  · intro h
    have hsome : (input.find? (fun w => w.id = mid)).isSome := by
      rw [List.find?_isSome]
      exact ⟨u, hu, by simp [h]⟩
    obtain ⟨w, hw⟩ := Option.isSome_iff_exists.mp hsome
    have hwp := List.find?_some hw
    have hwid : w.id = mid := of_decide_eq_true hwp
    have hwmem : w ∈ input := List.mem_of_find?_eq_some hw
    have hwu : w = u :=
      List.inj_on_of_nodup_map wfid hwmem hu (by rw [hwid, h])
    rw [hw, hwu]

/-- Evaluating `membersOfKey` when the key lookup finds an ungrouped
transaction. -/
theorem membersOfKey_eq_single (input : List SWAMPMessage) (k : Nat)
    (w : SWAMPMessage)
    (hw : input.find? (fun t => owningKey t = k) = some w)
    (hwg : w.group = none) :
    membersOfKey input k = [w] := by
  simp only [membersOfKey, hw, hwg]

/-- Evaluating `membersOfKey` when the key lookup finds a grouped
transaction. -/
theorem membersOfKey_eq_group (input : List SWAMPMessage) (k : Nat)
    (w : SWAMPMessage) (g : Nat × List Nat)
    (hw : input.find? (fun t => owningKey t = k) = some w)
    (hwg : w.group = some g) :
    membersOfKey input k
      = g.2.filterMap (fun mid => input.find? (fun u => u.id = mid)) := by
  simp only [membersOfKey, hw, hwg]

/-- Counting a given input transaction among looked-up member ids counts its
id among the member ids. -/
theorem count_filterMap_find (input : List SWAMPMessage)
    (wfid : (input.map (fun t => t.id)).Nodup)
    (u : SWAMPMessage) (hu : u ∈ input) :
    ∀ mids : List Nat,
    (mids.filterMap (fun mid =>
      input.find? (fun w => w.id = mid))).count u = mids.count u.id
  | [] => rfl
  | mid :: rest => by
    by_cases hmid : u.id = mid
    · subst hmid
      have hfind : input.find? (fun w => w.id = u.id) = some u :=
        (find_id_eq input wfid u hu u.id).mpr rfl
      simp only [List.filterMap_cons, hfind]
      rw [List.count_cons_self, List.count_cons_self,
        count_filterMap_find input wfid u hu rest]
    · cases hfind : input.find? (fun w => w.id = mid) with
      | none =>
        simp only [List.filterMap_cons, hfind]
        rw [count_filterMap_find input wfid u hu rest,
          List.count_cons_of_ne hmid]
      | some w =>
        have hwp := List.find?_some hfind
        have hwid : w.id = mid := of_decide_eq_true hwp
        have hne : u ≠ w := fun hc => hmid (hc ▸ hwid)
        simp only [List.filterMap_cons, hfind]
        rw [List.count_cons_of_ne hne,
          count_filterMap_find input wfid u hu rest,
          List.count_cons_of_ne hmid]

/-- Every input transaction appears exactly once among the members of its
own key. -/
theorem membersOfKey_count_eq_one (input : List SWAMPMessage)
    (wfid : (input.map (fun t => t.id)).Nodup)
    (wfmem : ∀ t ∈ input, ∀ g ∈ t.group, t.id ∈ g.2 ∧ g.2.Nodup)
    (wfgrp : ∀ t ∈ input, ∀ w ∈ input, ∀ g ∈ t.group, ∀ g' ∈ w.group,
      g.1 = g'.1 → g = g')
    (wfgid : ∀ t ∈ input, ∀ w ∈ input, ∀ g ∈ t.group, g.1 ≠ w.id)
    (u : SWAMPMessage) (hu : u ∈ input) :
    (membersOfKey input (owningKey u)).count u = 1 := by
  have hsome : (input.find? (fun t => owningKey t = owningKey u)).isSome := by
    rw [List.find?_isSome]
    exact ⟨u, hu, by simp⟩
  obtain ⟨w, hw⟩ := Option.isSome_iff_exists.mp hsome
  have hwp := List.find?_some hw
  have hwk : owningKey w = owningKey u := of_decide_eq_true hwp
  have hwmem : w ∈ input := List.mem_of_find?_eq_some hw
  cases hg : u.group with
  | none =>
    have hku : owningKey u = u.id := by simp [owningKey, hg]
    have hwg : w.group = none := by
      cases hwg : w.group with
      | none => rfl
      | some gw =>
        exfalso
        have hkw : owningKey w = gw.1 := by simp [owningKey, hwg]
        exact wfgid w hwmem u hu gw (by simp [hwg]) (by rw [← hkw, hwk, hku])
    have hwid : w.id = u.id := by
      have hkw : owningKey w = w.id := by simp [owningKey, hwg]
      rw [← hkw, hwk, hku]
    have hwu : w = u := List.inj_on_of_nodup_map wfid hwmem hu hwid
    rw [membersOfKey_eq_single input (owningKey u) w hw hwg, hwu]
    simp
  | some g =>
    have hku : owningKey u = g.1 := by simp [owningKey, hg]
    have hwg : w.group = some g := by
      cases hwg : w.group with
      | none =>
        exfalso
        have hkw : owningKey w = w.id := by simp [owningKey, hwg]
        exact wfgid u hu w hwmem g (by simp [hg])
          (by rw [← hku, ← hwk, hkw])
      | some gw =>
        have hkw : owningKey w = gw.1 := by simp [owningKey, hwg]
        have hgg : gw = g := wfgrp w hwmem u hu gw (by simp [hwg]) g
          (by simp [hg]) (by rw [← hkw, hwk, hku])
        exact congrArg some hgg
    rw [membersOfKey_eq_group input (owningKey u) w g hw hwg]
    rw [count_filterMap_find input wfid u hu g.2]
    have hm := wfmem u hu g (by simp [hg])
    exact List.count_eq_one_of_mem hm.2 hm.1

/-- An input transaction never appears among the members of another key. -/
theorem membersOfKey_count_eq_zero (input : List SWAMPMessage)
    (wfid : (input.map (fun t => t.id)).Nodup)
    (wfmem2 : ∀ t ∈ input, ∀ w ∈ input, ∀ g ∈ t.group,
      w.id ∈ g.2 → w.group = some g)
    (u : SWAMPMessage) (hu : u ∈ input) (k : Nat) (hk : k ≠ owningKey u) :
    (membersOfKey input k).count u = 0 := by
  cases hfind : input.find? (fun t => owningKey t = k) with
  | none =>
    simp only [membersOfKey, hfind]
    rfl
  | some w =>
    have hwp := List.find?_some hfind
    have hwk : owningKey w = k := of_decide_eq_true hwp
    have hwmem : w ∈ input := List.mem_of_find?_eq_some hfind
    cases hwg : w.group with
    | none =>
      have hne : u ≠ w := fun hc => hk (by rw [hc]; exact hwk.symm)
      rw [membersOfKey_eq_single input k w hfind hwg,
        List.count_cons_of_ne hne, List.count_nil]
    | some g =>
      rw [membersOfKey_eq_group input k w g hfind hwg,
        count_filterMap_find input wfid u hu g.2, List.count_eq_zero]
      intro hmem
      have hug : u.group = some g := wfmem2 w hwmem u hu g (by simp [hwg]) hmem
      have hku : owningKey u = g.1 := by simp [owningKey, hug]
      have hkw : owningKey w = g.1 := by simp [owningKey, hwg]
      exact hk (by rw [← hwk, hkw, hku])

/-- A transaction absent from every listed segment is absent from the
concatenation. -/
theorem count_flatMap_zero (seg : Nat → List SWAMPMessage) (u : SWAMPMessage) :
    ∀ ks : List Nat, (∀ k ∈ ks, (seg k).count u = 0) →
    (ks.flatMap seg).count u = 0
  | [], _ => rfl
  | k :: ks', h => by
    rw [List.flatMap_cons, List.count_append,
      h k (List.mem_cons_self k ks'),
      count_flatMap_zero seg u ks'
        (fun x hx => h x (List.mem_cons_of_mem k hx))]

/-- A transaction occurring once in exactly one listed segment occurs once
in the concatenation. -/
theorem count_flatMap_one (seg : Nat → List SWAMPMessage) (u : SWAMPMessage)
    (k0 : Nat) :
    ∀ ks : List Nat, ks.Nodup → k0 ∈ ks →
    (seg k0).count u = 1 → (∀ k ∈ ks, k ≠ k0 → (seg k).count u = 0) →
    (ks.flatMap seg).count u = 1
  | [], _, hmem, _, _ => absurd hmem (List.not_mem_nil k0)
  | k :: ks', hnd, hmem, h1, h0 => by
    rw [List.flatMap_cons, List.count_append]
    by_cases hk : k = k0
    · subst hk
      have hz : (ks'.flatMap seg).count u = 0 := by
        apply count_flatMap_zero
        intro x hx
        have hxne : x ≠ k :=
          ne_of_mem_of_not_mem hx (List.nodup_cons.mp hnd).1
        exact h0 x (List.mem_cons_of_mem k hx) hxne
      rw [h1, hz]
    · have hk0 : k0 ∈ ks' := by
        rcases List.mem_cons.mp hmem with h | h
        · exact absurd h.symm hk
        · exact h
      rw [h0 k (List.mem_cons_self k ks') hk,
        count_flatMap_one seg u k0 ks' (List.nodup_cons.mp hnd).2 hk0 h1
          (fun x hx hxne => h0 x (List.mem_cons_of_mem k hx) hxne)]

/-- Each listed segment sits contiguously inside the concatenation. -/
theorem segment_contiguous_in_flatMap (seg : Nat → List SWAMPMessage) :
    ∀ (ks : List Nat) (k : Nat), k ∈ ks → (seg k) <:+: (ks.flatMap seg)
  | [], k, hmem => absurd hmem (List.not_mem_nil k)
  | k0 :: ks', k, hmem => by
    rw [List.flatMap_cons]
    rcases List.mem_cons.mp hmem with h | h
    · subst h
      exact ⟨[], ks'.flatMap seg, by simp⟩
    · exact (segment_contiguous_in_flatMap seg ks' k h).trans
        (List.IsSuffix.isInfix ⟨seg k0, rfl⟩)

/-- The keys are listed in strictly increasing order of first occurrence. -/
theorem firstOccurrenceKeys_sorted :
    ∀ input : List SWAMPMessage,
    (firstOccurrenceKeys input).Pairwise (fun k1 k2 =>
      input.findIdx (fun t => owningKey t = k1) <
      input.findIdx (fun t => owningKey t = k2))
  | [] => List.Pairwise.nil
  | t :: ts => by
    rw [firstOccurrenceKeys, List.pairwise_cons]
    constructor
    · intro k hk
      have hkne : k ≠ owningKey t := by
        simpa using (List.mem_filter.mp hk).2
      have h1 : (t :: ts).findIdx (fun w => owningKey w = owningKey t) = 0 := by
        rw [List.findIdx_cons]; simp
      have h2 : (t :: ts).findIdx (fun w => owningKey w = k)
          = ts.findIdx (fun w => owningKey w = k) + 1 := by
        rw [List.findIdx_cons]
        simp [Ne.symm hkne]
      rw [h1, h2]
      omega
    · refine List.Pairwise.imp_of_mem ?_
        (List.Pairwise.filter _ (firstOccurrenceKeys_sorted ts))
      intro a b ha hb hab
      have hane : a ≠ owningKey t := by
        simpa using (List.mem_filter.mp ha).2
      have hbne : b ≠ owningKey t := by
        simpa using (List.mem_filter.mp hb).2
      have h2a : (t :: ts).findIdx (fun w => owningKey w = a)
          = ts.findIdx (fun w => owningKey w = a) + 1 := by
        rw [List.findIdx_cons]
        simp [Ne.symm hane]
      have h2b : (t :: ts).findIdx (fun w => owningKey w = b)
          = ts.findIdx (fun w => owningKey w = b) + 1 := by
        rw [List.findIdx_cons]
        simp [Ne.symm hbne]
      rw [h2a, h2b]
      omega

/-! ## Claim theorems -/

/-- C1, counterexample: resolving an already-terminal transaction does not
fail with `InvalidStateTransition` -- `set_error` on a committed transaction
succeeds and moves the state from `committed` to `error`, so the terminal
state is not set exactly once and does change again. -/
theorem c1_counterexample :
    (SWAMPMessage.commit (WriteTransaction 0 5 1 0)).state
      = TState.committed ∧
    (SWAMPMessage.set_error
        (SWAMPMessage.commit (WriteTransaction 0 5 1 0)) "boom").state
      = TState.error ∧
    TState.error ≠ TState.committed := by decide

/-- C1, amended: `commit` and `set_error` (and `ReadTransaction.commit`) set
the terminal state unconditionally; resolving an already-terminal
transaction never fails, it simply overwrites the state with the new
outcome, and no `InvalidStateTransition` check exists. -/
theorem c1_resolution_unconditional (m : SWAMPMessage) (e : String) (v : Nat) :
    m.commit.state = TState.committed ∧
    (m.set_error e).state = TState.error ∧
    (m.set_error e).error_message = some e ∧
    (m.commitRead v).state = TState.committed :=
  ⟨rfl, rfl, rfl, rfl⟩

/-- C2: a full-byte write of byte `v` at address `a` leaves the cache at `a`
equal to `v`; when the write is not redundant, exactly one `WriteTransaction`
carrying the full byte `v` is sent and resolving it as committed makes the
committed byte at `a` equal to `v`; and in general, resolving any in-flight
committed write makes the committed byte at its address equal to the full
value masked into the prior committed byte. -/
theorem c2_write_roundtrip (s : SyncMem) (a : Int) (v : Nat)
    (u : SyncMem) (t : SWAMPMessage) (value : Nat)
    (ha0 : 0 ≤ a) (ha : a.toNat < s.memory_cache.length)
    (hacm : a.toNat < s.memory_committed.length)
    (hv : v < 256) (hcell : pyGet s.memory_cache a < 256)
    (hmem : u.in_flight_transactions.any (fun w => w.id = t.id) = true)
    (hkind : t.kind = TKind.write value) (hstate : t.state = TState.committed)
    (hta0 : 0 ≤ t.address) (hta : t.address.toNat < u.memory_committed.length) :
    pyGet ((s.write [(a, 255, v)]).1.memory_cache) a = v ∧
    (pyGet s.memory_cache a ≠ v →
      (s.write [(a, 255, v)]).2 = [WriteTransaction a v s.id s.next_id] ∧
      ∃ s2, (s.write [(a, 255, v)]).1.receive_response
          [(WriteTransaction a v s.id s.next_id).commit] = .ok s2 ∧
        pyGet s2.memory_committed a = v) ∧
    (∃ u2, u.processOne t = .ok u2 ∧
      pyGet u2.memory_committed t.address =
        maskUpdate (pyGet u.memory_committed t.address) 255 value) := by
  refine ⟨?_, ?_, ?_⟩
  · by_cases hne : pyGet s.memory_cache a = v
    · have hred : s.writeOne (a, 255, v) = (s, []) := by
        apply writeOne_redundant
        simp [hne]
      rw [write_singleton, hred]
      exact hne
    · rw [write_single_full s a v ha0 ha hv hcell hne]
      show pyGet (update_memory s.memory_cache a 255 v) a = v
      unfold update_memory
      rw [pyGet_pySet_self _ _ _ ha0 ha, maskUpdate_full _ _ hv]
  · intro hne
    rw [write_single_full s a v ha0 ha hv hcell hne]
    refine ⟨rfl, ?_⟩
    rw [receive_response_singleton]
    rw [processOne_committed_write _ _ v
      (by simp [List.any_append, WriteTransaction, SWAMPMessage.commit]) rfl rfl]
    refine ⟨_, rfl, ?_⟩
    show pyGet (update_memory s.memory_committed a 255 v) a = v
    unfold update_memory
    rw [pyGet_pySet_self _ _ _ ha0 hacm, maskUpdate_full _ _ hv]
  · refine ⟨_, processOne_committed_write u t value hmem hkind hstate, ?_⟩
    show pyGet (update_memory u.memory_committed t.address 255 value) t.address
      = maskUpdate (pyGet u.memory_committed t.address) 255 value
    unfold update_memory
    rw [pyGet_pySet_self _ _ _ hta0 hta]

/-- C2 witness: the round trip at address 3 with byte 42 on a fresh zeroed
memory of size 8, and the general law instantiated at the committed write it
produces. -/
theorem c2_witness :
    pyGet (((SyncMem.init 8 1).write [((3 : Int), 255, 42)]).1.memory_cache) 3
      = 42 ∧
    (((SyncMem.init 8 1).write [((3 : Int), 255, 42)]).2
        = [WriteTransaction 3 42 1 0] ∧
      ∃ s2, ((SyncMem.init 8 1).write [((3 : Int), 255, 42)]).1.receive_response
          [(WriteTransaction 3 42 1 0).commit] = .ok s2 ∧
        pyGet s2.memory_committed 3 = 42) ∧
    (∃ u2, (((SyncMem.init 8 1).write [((3 : Int), 255, 42)]).1).processOne
        ((WriteTransaction 3 42 1 0).commit) = .ok u2 ∧
      pyGet u2.memory_committed ((WriteTransaction 3 42 1 0).commit).address =
        maskUpdate
          (pyGet (((SyncMem.init 8 1).write
            [((3 : Int), 255, 42)]).1).memory_committed
            ((WriteTransaction 3 42 1 0).commit).address) 255 42) := by
  have h := c2_write_roundtrip (SyncMem.init 8 1) 3 42
    (((SyncMem.init 8 1).write [((3 : Int), 255, 42)]).1)
    ((WriteTransaction 3 42 1 0).commit) 42
    (by decide) (by decide) (by decide) (by decide) (by decide)
    (by decide) rfl rfl (by decide) (by decide)
  exact ⟨h.1, h.2.1 (by decide), h.2.2⟩

/-- C3: the Group Ordering Algorithm emits every input transaction exactly
once, keeps the present members of each key contiguous in creation order,
lists the keys in strictly increasing order of first occurrence, and on the
grouping scenario of the tests yields `[t3, t4, t5, t1, t2]`.  The
well-formedness hypotheses state what holds of transactions and groups made
by the constructors and `link_messages_to_group`: globally unique ids,
member lists that record exactly the members of the group in creation
order, and group ids disjoint from transaction ids. -/
theorem c3_group_ordering (input : List SWAMPMessage)
    (wfid : (input.map (fun t => t.id)).Nodup)
    (wfmem : ∀ t ∈ input, ∀ g ∈ t.group, t.id ∈ g.2 ∧ g.2.Nodup)
    (wfgrp : ∀ t ∈ input, ∀ w ∈ input, ∀ g ∈ t.group, ∀ g' ∈ w.group,
      g.1 = g'.1 → g = g')
    (wfgid : ∀ t ∈ input, ∀ w ∈ input, ∀ g ∈ t.group, g.1 ≠ w.id)
    (wfmem2 : ∀ t ∈ input, ∀ w ∈ input, ∀ g ∈ t.group,
      w.id ∈ g.2 → w.group = some g) :
    (∀ u ∈ input, (ensure_groups_are_atomic input).count u = 1) ∧
    (∀ k ∈ firstOccurrenceKeys input,
      (membersOfKey input k) <:+: (ensure_groups_are_atomic input)) ∧
    (firstOccurrenceKeys input).Pairwise (fun k1 k2 =>
      input.findIdx (fun t => owningKey t = k1) <
      input.findIdx (fun t => owningKey t = k2)) ∧
    link_messages_to_group 101 [t1ex, t2ex] = [t1g, t2g] ∧
    link_messages_to_group 102 [t4ex, t5ex] = [t4g, t5g] ∧
    ensure_groups_are_atomic exInput = [t3ex, t4g, t5g, t1g, t2g] := by
  refine ⟨?_, ?_, firstOccurrenceKeys_sorted input,
    by decide, by decide, by decide⟩
  · intro u hu
    unfold ensure_groups_are_atomic
    exact count_flatMap_one (membersOfKey input) u (owningKey u)
      (firstOccurrenceKeys input)
      (nodup_firstOccurrenceKeys input)
      ((mem_firstOccurrenceKeys input (owningKey u)).mpr ⟨u, hu, rfl⟩)
      (membersOfKey_count_eq_one input wfid wfmem wfgrp wfgid u hu)
      (fun k _ hkne =>
        membersOfKey_count_eq_zero input wfid wfmem2 u hu k hkne)
  · intro k hk
    exact segment_contiguous_in_flatMap (membersOfKey input) (firstOccurrenceKeys input) k hk

/-- C3 witness: on the grouping scenario of the tests, the grouped
transaction t4 is emitted exactly once. -/
theorem c3_witness :
    (ensure_groups_are_atomic exInput).count t4g = 1 :=
  (c3_group_ordering exInput (by decide) (by decide) (by decide) (by decide)
    (by decide)).1 t4g (by decide)

/-- C4: a non-redundant full-byte write followed by delivering its
transaction resolved with an error raises a `RuntimeError`, leaving the
committed memory unchanged at the default pattern. -/
theorem c4_write_error_committed_unchanged (p : List Nat) (origin : Nat)
    (a : Int) (v : Nat)
    (ha0 : 0 ≤ a) (ha : a.toNat < p.length) (hv : v < 256)
    (hcell : pyGet p a < 256) (hne : pyGet p a ≠ v) :
    ((SyncMem.initPattern p origin).write [(a, 255, v)]).2
      = [WriteTransaction a v origin 0] ∧
    ∃ s2,
      ((SyncMem.initPattern p origin).write [(a, 255, v)]).1.receive_response
        [(WriteTransaction a v origin 0).set_error
          "Mock error to test handling"]
        = .error (errorMsg, s2) ∧
      s2.memory_committed = p ∧ s2.mem_default = p := by
  rw [write_single_full (SyncMem.initPattern p origin) a v ha0 ha hv hcell hne]
  refine ⟨rfl, ?_⟩
  rw [receive_response_singleton]
  rw [processOne_error_write _ _ v
    (by simp [List.any_append, WriteTransaction, SWAMPMessage.set_error,
      SyncMem.initPattern]) rfl rfl]
  exact ⟨_, rfl, rfl, rfl⟩

/-- C4 witness: writing 42 at address 3 of a fresh zeroed memory of size 8,
then delivering the transaction resolved with an error. -/
theorem c4_witness :
    ((SyncMem.initPattern (List.replicate 8 0) 1).write
        [((3 : Int), 255, 42)]).2 = [WriteTransaction 3 42 1 0] ∧
    ∃ s2,
      ((SyncMem.initPattern (List.replicate 8 0) 1).write
          [((3 : Int), 255, 42)]).1.receive_response
        [(WriteTransaction 3 42 1 0).set_error "Mock error to test handling"]
        = .error (errorMsg, s2) ∧
      s2.memory_committed = List.replicate 8 0 ∧
      s2.mem_default = List.replicate 8 0 :=
  c4_write_error_committed_unchanged (List.replicate 8 0) 1 3 42
    (by decide) (by decide) (by decide) (by decide) (by decide)

/-- C5: an update whose masked bits already equal the masked bits of the
cache is a no-op submitting no transaction and changing no state, and a
whole batch of such redundant updates submits no transactions at all. -/
theorem c5_redundant_writes_noop (s : SyncMem)
    (messages : List (Int × Nat × Nat))
    (h : ∀ m ∈ messages,
      pyGet s.memory_cache m.1 &&& m.2.1 = m.2.2 &&& m.2.1) :
    (∀ m ∈ messages, s.writeOne m = (s, [])) ∧
    s.write messages = (s, []) := by
  have hone : ∀ m ∈ messages, s.writeOne m = (s, []) :=
    fun m hm => writeOne_redundant s m (h m hm)
  exact ⟨hone, write_all_redundant s messages hone⟩

/-- C5 witness: on a fresh zeroed memory of size 8, a batch of two redundant
updates changes nothing and submits nothing. -/
theorem c5_witness :
    (∀ m ∈ [((3 : Int), 255, 0), ((0 : Int), 15, 0)],
      (SyncMem.init 8 1).writeOne m = (SyncMem.init 8 1, [])) ∧
    (SyncMem.init 8 1).write [((3 : Int), 255, 0), ((0 : Int), 15, 0)]
      = (SyncMem.init 8 1, []) :=
  c5_redundant_writes_noop (SyncMem.init 8 1)
    [((3 : Int), 255, 0), ((0 : Int), 15, 0)] (by decide)

/-- C6: in the matching loop, a non-sentinel response identifier matching
zero or several in-flight entries raises the fatal unexpected-response error
with the registry unchanged and nothing resolved; a response matching
exactly one entry has that identifier released back to the free pool and the
entry removed from the registry before the message is resolved (and before
the structural checks, which may themselves still raise). -/
theorem c6_listen_matching (st : TransportState) (r : Response)
    (hs : ¬(r.transID = 0 ∨ r.transID = 255)) :
    ((st.transaction_queue.filter (fun t => t.1 = r.transID)).length ≠ 1 →
      listen_step st r = .fatal
        "Got a response for a message that was not listed as an open transaction"
        st) ∧
    ((st.transaction_queue.filter (fun t => t.1 = r.transID)).length = 1 →
      ∃ message,
        st.transaction_queue.filter (fun t => t.1 = r.transID)
          = [(r.transID, message)] ∧
        (listen_step st r = .fatal "Channel mismatch"
            ⟨st.free_transaction_ids ++ [r.transID],
             st.transaction_queue.filter (fun t => t.1 ≠ r.transID)⟩ ∨
         listen_step st r = .fatal "The Address in the response was not 0"
            ⟨st.free_transaction_ids ++ [r.transID],
             st.transaction_queue.filter (fun t => t.1 ≠ r.transID)⟩ ∨
         ∃ m2, listen_step st r = .resolved
            ⟨st.free_transaction_ids ++ [r.transID],
             st.transaction_queue.filter (fun t => t.1 ≠ r.transID)⟩
            r.transID m2)) := by
  constructor
  · intro hlen
    simp only [listen_step]
    rw [if_neg hs, if_pos hlen]
  · intro hlen
    obtain ⟨tp, hfe⟩ := List.length_eq_one.mp hlen
    obtain ⟨tid, msg⟩ := tp
    have htid : tid = r.transID := by
      have hmem : (tid, msg) ∈
          st.transaction_queue.filter (fun t => t.1 = r.transID) := by
        rw [hfe]; exact List.mem_singleton.mpr rfl
      exact of_decide_eq_true (List.mem_filter.mp hmem).2
    subst htid
    refine ⟨msg, hfe, ?_⟩
    simp only [listen_step]
    rw [if_neg hs, if_neg (not_not_intro hlen), hfe]
    simp only [List.getD_cons_zero]
    by_cases hc : msg.channel = r.channel
    · rw [if_neg (not_not_intro hc)]
      by_cases haddr : r.address = 0
      · rw [if_neg (not_not_intro haddr)]
        by_cases herr : r.error = 0
        · rw [if_pos herr]
          exact Or.inr (Or.inr ⟨_, rfl⟩)
        · rw [if_neg herr]
          exact Or.inr (Or.inr ⟨_, rfl⟩)
      · rw [if_pos haddr]
        exact Or.inr (Or.inl rfl)
    · rw [if_pos hc]
      exact Or.inl rfl

/-- C6 witness: a frame answering identifier 5, which is in flight exactly
once, releases 5 to the free pool, removes the entry, and resolves the
message. -/
theorem c6_witness :
    ∃ message,
      stEx.transaction_queue.filter (fun t => t.1 = rEx.transID)
        = [(rEx.transID, message)] ∧
      (listen_step stEx rEx = .fatal "Channel mismatch"
          ⟨stEx.free_transaction_ids ++ [rEx.transID],
           stEx.transaction_queue.filter (fun t => t.1 ≠ rEx.transID)⟩ ∨
       listen_step stEx rEx = .fatal "The Address in the response was not 0"
          ⟨stEx.free_transaction_ids ++ [rEx.transID],
           stEx.transaction_queue.filter (fun t => t.1 ≠ rEx.transID)⟩ ∨
       ∃ m2, listen_step stEx rEx = .resolved
          ⟨stEx.free_transaction_ids ++ [rEx.transID],
           stEx.transaction_queue.filter (fun t => t.1 ≠ rEx.transID)⟩
          rEx.transID m2) :=
  (c6_listen_matching stEx rEx (by decide)).2 (by decide)

/-- C7: `transmit` fails with the exhausted-identifiers error exactly when
the free pool is empty; otherwise it pops the first free identifier and
appends the (identifier, message) pair to the in-flight registry. -/
theorem c7_transmit_registry (st : TransportState) (message : Message) :
    ((∃ e, transmit st message = .error e) ↔ st.free_transaction_ids = []) ∧
    (st.free_transaction_ids = [] →
      transmit st message = .error "No more free transaction IDs") ∧
    (∀ tid rest, st.free_transaction_ids = tid :: rest →
      transmit st message =
        .ok ({ free_transaction_ids := rest,
               transaction_queue :=
                 st.transaction_queue ++ [(tid, message)] }, tid)) := by
  obtain ⟨free, queue⟩ := st
  cases free with
  | nil =>
    refine ⟨⟨fun _ => rfl, fun _ => ⟨"No more free transaction IDs", rfl⟩⟩,
      fun _ => rfl, ?_⟩
    intro tid rest hfr
    exact absurd hfr (by simp)
  | cons tid0 rest0 =>
    refine ⟨⟨?_, fun hc => by simp at hc⟩, fun hc => by simp at hc, ?_⟩
    · rintro ⟨e, he⟩
      simp [transmit] at he
    · intro tid rest hfr
      obtain ⟨h1, h2⟩ := List.cons.injEq tid0 rest0 tid rest ▸ hfr
      subst h1; subst h2
      rfl

/-- C7 witness: with free pool `[5, 6]`, transmitting pops 5 and registers
the pair; with an empty pool, it fails. -/
theorem c7_witness :
    ((∃ e, transmit ⟨[5, 6], []⟩ (Message.mk 9 3 4 [1] none none none)
        = .error e) ↔ ([5, 6] : List Nat) = []) ∧
    (([5, 6] : List Nat) = [] →
      transmit ⟨[5, 6], []⟩ (Message.mk 9 3 4 [1] none none none)
        = .error "No more free transaction IDs") ∧
    (∀ tid rest, ([5, 6] : List Nat) = tid :: rest →
      transmit ⟨[5, 6], []⟩ (Message.mk 9 3 4 [1] none none none) =
        .ok ({ free_transaction_ids := rest,
               transaction_queue :=
                 [] ++ [(tid, Message.mk 9 3 4 [1] none none none)] }, tid)) :=
  c7_transmit_registry ⟨[5, 6], []⟩ (Message.mk 9 3 4 [1] none none none)

/-- C8 (code bug): the hardware-verified read path crashes instead of
validating.  `with self.read_complete as cleared_to_read` binds the bool
`True` returned by acquiring the underlying lock, so every hardware read
raises `AttributeError` right after submitting its transactions, with the
submitted reads left registered in flight; and when the awaited-read list
drains in the callback, `rc.notify_all()` raises `AttributeError` there as
well, after the bookkeeping and the read-error update.  The claimed
behaviour -- block, then raise a consistency error on error or mismatch,
otherwise return the committed values -- is unreachable. -/
theorem c8_hardware_read_crash (s : SyncMem) (addresses : List Int)
    (t : SWAMPMessage) (o : Option Nat) (u : SyncMem)
    (hf : u.in_flight_transactions = [t])
    (hw : u.transactions_waited_on = [t])
    (hkind : t.kind = TKind.read none) :
    (s.read_from_hardware addresses).2 = .error pyBoolWaitError ∧
    (s.read_from_hardware addresses).1.in_flight_transactions
      = s.in_flight_transactions ++ (s.readHwSubmit addresses).2 ∧
    u.receive_response [resolveRead t o]
      = .error (pyBoolNotifyError,
        { u with
          in_flight_transactions := [],
          transactions_waited_on := [],
          read_error := readOutcomeErr u t o }) := by
  refine ⟨?_, ?_, ?_⟩
  · rcases hsub : s.readHwSubmit addresses with ⟨s1, ts⟩
    simp [SyncMem.read_from_hardware, hsub]
  · rcases hsub : s.readHwSubmit addresses with ⟨s1, ts⟩
    have hspec := readHwSubmit_spec addresses s
    rw [hsub] at hspec
    simpa [SyncMem.read_from_hardware, hsub] using hspec.2.2.2.2.1
  · rw [receive_response_singleton]
    exact processOne_read_last u t o hf hw hkind

/-- C8 witness: one hardware read of address 3 on a fresh zeroed memory of
size 8 raises the wait `AttributeError` with the read left in flight, and
delivering that read resolved with the matching byte 0 raises the notify
`AttributeError` in the callback. -/
theorem c8_witness :
    ((SyncMem.init 8 1).read_from_hardware [(3 : Int)]).2
      = .error pyBoolWaitError ∧
    ((SyncMem.init 8 1).read_from_hardware [(3 : Int)]).1.in_flight_transactions
      = (SyncMem.init 8 1).in_flight_transactions
        ++ ((SyncMem.init 8 1).readHwSubmit [(3 : Int)]).2 ∧
    (((SyncMem.init 8 1).readHwSubmit [(3 : Int)]).1).receive_response
      [resolveRead (ReadTransaction 3 1 0) (some 0)]
      = .error (pyBoolNotifyError,
        { ((SyncMem.init 8 1).readHwSubmit [(3 : Int)]).1 with
          in_flight_transactions := [],
          transactions_waited_on := [],
          read_error := readOutcomeErr
            (((SyncMem.init 8 1).readHwSubmit [(3 : Int)]).1)
            (ReadTransaction 3 1 0) (some 0) }) :=
  c8_hardware_read_crash (SyncMem.init 8 1) [(3 : Int)]
    (ReadTransaction 3 1 0) (some 0)
    (((SyncMem.init 8 1).readHwSubmit [(3 : Int)]).1)
    (by decide) (by decide) rfl

/-- C9: the concrete scenario -- size 8, all-zero default,
`write([(3, 0xFF, 42)])` makes `cache[3] = 42` while `committed[3] = 0`,
exactly one write transaction carrying the byte 42 is submitted, and after
it resolves as committed `committed[3] = 42`.  (The committed-view read
before resolution, which the docstring and the tests promise, does not
exist in the code: `read` has no `committed` parameter.) -/
theorem c9_scenario :
    pyGet ((SyncMem.init 8 1).write [((3 : Int), 255, 42)]).1.memory_cache 3
      = 42 ∧
    pyGet ((SyncMem.init 8 1).write
      [((3 : Int), 255, 42)]).1.memory_committed 3 = 0 ∧
    ((SyncMem.init 8 1).write [((3 : Int), 255, 42)]).2
      = [WriteTransaction 3 42 1 0] ∧
    (okState (((SyncMem.init 8 1).write [((3 : Int), 255, 42)]).1.receive_response
        [(WriteTransaction 3 42 1 0).commit])).map
      (fun u => pyGet u.memory_committed 3) = some 42 := by decide

/-- C10: a transaction delivered to `receive_response` that is not in the
in-flight set changes nothing and raises nothing. -/
theorem c10_unknown_transaction_ignored (s : SyncMem) (t : SWAMPMessage)
    (h : s.in_flight_transactions.any (fun u => u.id = t.id) = false) :
    s.receive_response [t] = .ok s := by
  simp only [SyncMem.receive_response, List.foldlM]
  simp [SyncMem.processOne, h]

/-- C10 witness: a committed `MemReset` built out of band (as the mock
transport does in `trigger_reset`) is ignored even while a genuine write is
in flight. -/
theorem c10_witness :
    ((SyncMem.init 8 1).write [((3 : Int), 255, 42)]).1.receive_response
      [(MemReset 0 7).commit]
      = .ok ((SyncMem.init 8 1).write [((3 : Int), 255, 42)]).1 :=
  c10_unknown_transaction_ignored
    ((SyncMem.init 8 1).write [((3 : Int), 255, 42)]).1
    ((MemReset 0 7).commit) (by decide)

end Swamp
